import Mathlib

/-
Verification of the Malayalam writing-style / clickbait scoring engine
(app/services/writing_style.py, class EnhancedMalayalamAnalyzer).

Shallow embedding conventions:
- Python strings are modelled as List Char.
- Python float arithmetic is modelled exactly: intermediate scores are
  rationals, and the sigmoid normalization is a function on the reals.
- The regex pattern bank of the analyzer consists solely of alternations
  of literal strings (two rules additionally carry a leading digit-run,
  from the regex fragment for one or more digits).  The matcher below
  implements re.findall for that fragment of regexes: scan left to
  right, at each position try the alternatives in order, on a match
  advance past it, otherwise advance one character.  Case-insensitive
  matching (re.IGNORECASE) is realized by lowercasing the text, since
  every literal in the bank is already lowercase.
-/

set_option maxRecDepth 100000

namespace WritingStyle

/-- Characters of the Malayalam Unicode block, the character class of the
compiled regex self.malayalam_range. -/
def isMalayalamChar (c : Char) : Bool :=
  0xD00 ≤ c.toNat && c.toNat ≤ 0xD7F

/-- Models self.malayalam_range.search(text): does the text contain at
least one Malayalam character. -/
def hasMalayalam (t : List Char) : Bool :=
  t.any isMalayalamChar

/-- Whitespace as recognized by Python str.strip (ASCII whitespace plus
the Unicode space characters). -/
def isPySpace (c : Char) : Bool :=
  (9 ≤ c.toNat && c.toNat ≤ 13) || (28 ≤ c.toNat && c.toNat ≤ 32) ||
  c.toNat == 0x85 || c.toNat == 0xA0 || c.toNat == 0x1680 ||
  (0x2000 ≤ c.toNat && c.toNat ≤ 0x200A) ||
  c.toNat == 0x2028 || c.toNat == 0x2029 || c.toNat == 0x202F ||
  c.toNat == 0x205F || c.toNat == 0x3000

/-- Models Python str.strip(): remove leading and trailing whitespace. -/
def pyStrip (t : List Char) : List Char :=
  ((t.dropWhile isPySpace).reverse.dropWhile isPySpace).reverse

/-- One alternative of a pattern: an optional leading run of one or more
digits followed by a literal string. -/
structure Alt where
  digitsBefore : Bool
  lit : List Char

/-- A plain literal alternative. -/
def la (s : String) : Alt := ⟨false, s.toList⟩

/-- An alternative that is a digit run followed by a literal. -/
def da (s : String) : Alt := ⟨true, s.toList⟩

/-- A pattern rule of the bank: the alternatives of the compiled regex
and the hand-assigned integer weight. -/
structure Rule where
  alts : List Alt
  weight : ℕ

/-- Length of the maximal leading digit run. -/
def countLeadingDigits : List Char → ℕ
  | [] => 0
  | c :: rest => if c.isDigit then countLeadingDigits rest + 1 else 0

/-- Length of the match of a single alternative at the head of s, if
any; for a digit-run alternative the run is maximal and nonempty, as in
the backtracking regex engine (the literal begins with a non-digit). -/
def altMatchLen (s : List Char) (a : Alt) : Option ℕ :=
  if a.digitsBefore then
    let k := countLeadingDigits s
    if k = 0 then none
    else if a.lit.isPrefixOf (s.drop k) then some (k + a.lit.length) else none
  else if a.lit.isPrefixOf s then some a.lit.length else none

/-- First alternative (in order) matching at the head of s, returning
the match length: regex alternation semantics. -/
def firstAltLen (alts : List Alt) (s : List Char) : Option ℕ :=
  alts.findSome? (altMatchLen s)

/-- Scan with explicit fuel; one unit of fuel per consumed character, so
fuel equal to the length of the text is always sufficient (every
alternative of the bank has positive match length). -/
def scanAux (alts : List Alt) : ℕ → List Char → ℕ
  | 0, _ => 0
  | _, [] => 0
  | fuel + 1, c :: rest =>
    match firstAltLen alts (c :: rest) with
    | some n => scanAux alts fuel (rest.drop (n - 1)) + 1
    | none => scanAux alts fuel rest

/-- Models len(pattern.findall(text)): the number of non-overlapping
left-to-right matches of the alternation in the text. -/
def scanCount (alts : List Alt) (s : List Char) : ℕ :=
  scanAux alts s.length s

/-- The three pattern categories of self.patterns.  The dictionary
lookup for an unknown key, which the code answers with (0, 0), is ruled
out here by typing. -/
inductive Category
  | clickbait
  | writingStyle
  | sensationalism

/-- The clickbait pattern bank, self.patterns of the source, category
clickbait: each rule lists the alternatives of its regex and its
weight. -/
def clickbaitPatterns : List Rule := [
  ⟨[la "അത്ഭുതകരമായ", la "അദ്ഭുതം", la "വിസ്മയകരം"], 25⟩,
  ⟨[la "ഞെട്ടിക്കുന്ന", la "ഞെട്ടിപ്പിക്കുന്ന", la "ഞെട്ടൽ"], 30⟩,
  ⟨[la "വിശ്വസിക്കാനാവില്ല", la "അവിശ്വസനീയം"], 25⟩,
  ⟨[la "രഹസ്യം", la "രഹസ്യങ്ങൾ", la "ഗൂഢരഹസ്യം"], 20⟩,
  ⟨[la "വൈറൽ", la "തരംഗമാകുന്ന", la "ട്രെൻഡിംഗ്"], 15⟩,
  ⟨[la "നിങ്ങൾക്കറിയാമോ?", la "എന്തുകൊണ്ട്?", la "എങ്ങനെ?"], 20⟩,
  ⟨[da " കാര്യങ്ങൾ", da " വഴികൾ", da " രഹസ്യങ്ങൾ"], 25⟩,
  ⟨[la "ഉടൻ", la "ഇപ്പോൾ തന്നെ", la "ഇന്ന്", la "ഈ നിമിഷം"], 20⟩,
  ⟨[la "അവസാന അവസരം", la "സമയം തീരുന്നതിന് മുമ്പ്"], 25⟩,
  ⟨[la "നിങ്ങൾ ഇത് കണ്ടോ", la "നിങ്ങൾ അറിയേണ്ടത്"], 25⟩,
  ⟨[la "ഇതാണ് യഥാർത്ഥ", la "ഇതാണ് സത്യം"], 20⟩,
  ⟨[la "njettikkuna", la "athbhutham", la "vishwasikkaan kazhiyilla"], 15⟩,
  ⟨[la "viral", la "trending", la "rahasyam", la "shock"], 15⟩,
  ⟨[la "shocking", la "amazing", la "unbelievable", la "must see"], 15⟩,
  ⟨[la "won\x27t believe", la "never seen", la "exclusive", la "revealed"], 15⟩]

/-- The writing-style pattern bank, category writing_style. -/
def writingStylePatterns : List Rule := [
  ⟨[la "അതിനാൽ", la "ആയതിനാൽ", la "അതിന്റെ ഫലമായി"], 15⟩,
  ⟨[la "എന്നിരുന്നാലും", la "എന്നാൽ", la "എങ്കിലും"], 10⟩,
  ⟨[la "പഠനം", la "ഗവേഷണം", la "നിരീക്ഷണം", la "വിശകലനം"], 15⟩,
  ⟨[la "ഒരുവശത്ത്", la "മറുവശത്ത്", la "എന്നാൽ", la "മറിച്ച്"], 10⟩,
  ⟨[la "അനുസരിച്ച്", la "പ്രകാരം", la "അഭിപ്രായത്തിൽ"], 15⟩,
  ⟨[la "എന്നത് കൊണ്ട് അർത്ഥമാക്കുന്നത്", la "എന്നതിനർത്ഥം"], 20⟩,
  ⟨[la "ശതമാനം", la "അനുപാതം", la "കണക്കനുസരിച്ച്"], 15⟩,
  ⟨[la "വസ്തുതകൾ", la "യാഥാർത്ഥ്യം", la "വസ്തുനിഷ്ഠമായി"], 15⟩]

/-- The sensationalism pattern bank, category sensationalism. -/
def sensationalismPatterns : List Rule := [
  ⟨[la "ദുരന്തം", la "ദുരിതം", la "ദുഃഖം", la "വേദന"], 25⟩,
  ⟨[la "ഭീകരം", la "ഭയാനകം", la "ഭീതി", la "ഭയം"], 25⟩,
  ⟨[la "എക്കാലത്തെയും", la "ഏറ്റവും വലിയ", la "ചരിത്രത്തിലെ ആദ്യം"], 20⟩,
  ⟨[la "അടിമറിച്ചു", la "തകർത്തു", la "തച്ചുടച്ചു"], 20⟩,
  ⟨[la "സംഘർഷം", la "യുദ്ധം", la "പോരാട്ടം", la "ഏറ്റുമുട്ടൽ"], 20⟩,
  ⟨[la "വിവാദം", la "ആരോപണം", la "കുംഭകോണം", la "അഴിമതി"], 25⟩]

/-- The pattern dictionary self.patterns. -/
def patterns : Category → List Rule
  | .clickbait => clickbaitPatterns
  | .writingStyle => writingStylePatterns
  | .sensationalism => sensationalismPatterns

/-- Occurrence count of one rule in the text, len(pattern.findall(text))
under re.IGNORECASE, realized by lowercasing the text (all literals of
the bank are lowercase; Char.toLower only affects ASCII letters and so
leaves Malayalam text unchanged). -/
def ruleCount (t : List Char) (r : Rule) : ℕ :=
  scanCount r.alts (t.map Char.toLower)

/-- Models EnhancedMalayalamAnalyzer._analyze_patterns: fold over the
rules of the category, and for each rule with at least one occurrence
add count times the weight (weight scaled by 1.2 when the text contains
Malayalam characters) to the total and the count to the match count. -/
def analyzePatterns (t : List Char) (cat : Category) : ℚ × ℕ :=
  let hasMal := hasMalayalam t
  (patterns cat).foldl (fun acc r =>
    let m := ruleCount t r
    if m ≠ 0 then
      (acc.1 + m * (if hasMal then (r.weight : ℚ) * 1.2 else (r.weight : ℚ)),
       acc.2 + m)
    else acc) (0, 0)

/-- The weighted total of a rule list over a text, as a natural number:
sum of occurrence count times weight. -/
def natTotal (t : List Char) (rules : List Rule) : ℕ :=
  (rules.map fun r => ruleCount t r * r.weight).sum

/-- The total match count of a rule list over a text. -/
def natCount (t : List Char) (rules : List Rule) : ℕ :=
  (rules.map fun r => ruleCount t r).sum

/-- Sentence-terminal characters of the split regex in _preprocess_text:
period, exclamation mark, question mark, and the two Devanagari danda
characters U+0964 and U+0965 (each listed twice in the character
class). -/
def isSentenceEnd (c : Char) : Bool :=
  c == Char.ofNat 46 || c == Char.ofNat 33 || c == Char.ofNat 63 ||
  c.toNat == 0x964 || c.toNat == 0x965

/-- Word characters of the token regex in _preprocess_text, restricted
to the scripts the analyzer handles: alphanumeric characters, the
underscore, and the Malayalam block. -/
def isWordChar (c : Char) : Bool :=
  c.isAlphanum || c == Char.ofNat 95 || isMalayalamChar c

/-- Models EnhancedMalayalamAnalyzer._preprocess_text: split into
sentences on terminal characters, keeping the stripped nonempty
fragments, and tokenize the lowercased text into maximal runs of word
characters. -/
def preprocess (t : List Char) : List (List Char) × List (List Char) :=
  let sentences := ((t.splitOnP isSentenceEnd).map pyStrip).filter
    (fun s => s.length ≠ 0)
  let words := ((t.map Char.toLower).splitOnP (fun c => !isWordChar c)).filter
    (fun w => w ≠ [])
  (sentences, words)

/-- Models EnhancedMalayalamAnalyzer._calculate_text_stats: average
sentence length and lexical diversity, both zero when either sequence is
empty. -/
def textStats (sentences words : List (List Char)) : ℚ × ℚ :=
  if sentences = [] ∨ words = [] then (0, 0)
  else ((words.length : ℚ) / (sentences.length : ℚ),
        (words.dedup.length : ℚ) / (words.length : ℚ))

/-- The fraction of Malayalam characters over the text length computed
in analyze_writing_style, zero for the empty text. -/
def malayalamFraction (t : List Char) : ℚ :=
  if t = [] then 0 else (t.countP isMalayalamChar : ℚ) / (t.length : ℚ)

/-- Models EnhancedMalayalamAnalyzer._normalize_score: the sigmoid
centered at 50 with slope constant 0.1, clipped to the interval from 0
to 100. -/
noncomputable def normalize (x : ℝ) : ℝ :=
  max 0 (min 100 (100 / (1 + Real.exp (-0.1 * (x - 50)))))

/-- The record returned by analyze_text. -/
structure AnalysisResult where
  sensationalism : ℝ
  writingStyle : ℝ
  clickbait : ℝ

/-- The all-zero result returned for invalid input. -/
def zeroResult : AnalysisResult := ⟨0, 0, 0⟩

/-- Models EnhancedMalayalamAnalyzer.analyze_writing_style: blend the
writing-style rule score with the sentence-length factor and the
lexical-diversity factor, both adjusted when the Malayalam fraction
exceeds 0.3, and normalize. -/
noncomputable def analyzeWritingStyle (t : List Char) : ℝ :=
  let pre := preprocess t
  let stats := textStats pre.1 pre.2
  let styleScore := (analyzePatterns t Category.writingStyle).1
  let lengthFactor : ℚ := min 100 (stats.1 * 5)
  let diversityFactor : ℚ := min 100 (stats.2 * 200)
  let lengthFactor := if malayalamFraction t > 0.3 then lengthFactor * 0.8
    else lengthFactor
  let diversityFactor := if malayalamFraction t > 0.3 then diversityFactor * 1.2
    else diversityFactor
  let combined := styleScore * 0.5 + lengthFactor * 0.25 + diversityFactor * 0.25
  normalize (combined : ℚ)

/-- The calibration constant max_observed of
calculate_clickbait_score: 500 when the text contains a Malayalam
character, else 400. -/
def maxObserved (t : List Char) : ℚ :=
  if hasMalayalam t then 500 else 400

/-- The length penalty of calculate_clickbait_score: 0.8 for texts
longer than 1000 characters, else 1. -/
def clickbaitLengthFactor (t : List Char) : ℚ :=
  if 1000 < t.length then 0.8 else 1

/-- The variable normalized_score of calculate_clickbait_score before
the sigmoid: rule total over max_observed, times 100, times the length
penalty. -/
def rawClickbait (t : List Char) : ℚ :=
  (analyzePatterns t Category.clickbait).1 / maxObserved t * 100 *
    clickbaitLengthFactor t

/-- Models EnhancedMalayalamAnalyzer.calculate_clickbait_score. -/
noncomputable def calculateClickbaitScore (t : List Char) : ℝ :=
  normalize (rawClickbait t)

/-- The body of analyze_text after validation and truncation, lines 287
to 313 of the source: writing style, clickbait, the sensationalism
blend, and a final sigmoid on each of the three values. -/
noncomputable def analyzeCore (t : List Char) : AnalysisResult :=
  let hasMal := hasMalayalam t
  let ws := analyzeWritingStyle t
  let cb := calculateClickbaitScore t
  let sens : ℝ :=
    if hasMal then
      (((analyzePatterns t Category.sensationalism).1 / 400 * 100 : ℚ) : ℝ) * 0.6
        + cb * 0.4
    else
      cb * 0.7 + (100 - ws) * 0.3
  ⟨normalize sens, normalize ws, normalize cb⟩

/-- Models EnhancedMalayalamAnalyzer.analyze_text: inputs that strip to
the empty string get the all-zero result; otherwise the text is
truncated to 3000 characters and scored.  The try-except wrappers of the
source are modelled by totality: no branch of the embedding can fail. -/
noncomputable def analyzeText (s : List Char) : AnalysisResult :=
  if pyStrip s = [] then zeroResult else analyzeCore (s.take 3000)

/-- The sensationalism blend computed by analyze_text before its final
normalization: for Malayalam text the dedicated sensationalism rule
total over 400, times 100, blended 60/40 with the clickbait score; for
other text a 70/30 blend of the clickbait score and the inverse
writing-style score. -/
noncomputable def sensRaw (t : List Char) : ℝ :=
  if hasMalayalam t then
    (((analyzePatterns t Category.sensationalism).1 / 400 * 100 : ℚ) : ℝ) * 0.6
      + calculateClickbaitScore t * 0.4
  else
    calculateClickbaitScore t * 0.7 + (100 - analyzeWritingStyle t) * 0.3

/-- A 125-character text consisting of 25 occurrences of a clickbait
pattern and no Malayalam characters. -/
def c6t : List Char :=
  "shockshockshockshockshockshockshockshockshockshockshockshockshockshockshockshockshockshockshockshockshockshockshockshockshock".toList

/-- The same text with one further clickbait occurrence appended, this
one from a Malayalam rule of the bank. -/
def c6u : List Char := c6t ++ "വൈറൽ".toList

/-! The mutable state of the analyzer object: the lru_cache maps of
_preprocess_text and _normalize_score.  The cached variants below thread
this state exactly along the call graph of analyze_text; they are the
embedding of the program as it executes, while the pure functions above
describe single calls. -/

/-- The memo maps held by the lru_cache decorators (capacity eviction is
irrelevant to the value computed, so the model keeps every entry). -/
structure AnalyzerState where
  preCache : List (List Char × (List (List Char) × List (List Char)))
  normCache : List (ℝ × ℝ)

/-- Lookup of a key in a memo map, first entry wins. -/
def cacheFind {α β : Type} [DecidableEq α] : List (α × β) → α → Option β
  | [], _ => none
  | (k, v) :: rest, k2 => if k2 = k then some v else cacheFind rest k2

/-- The state of the analyzer right after construction: both memo maps
empty. -/
def initState : AnalyzerState := ⟨[], []⟩

/-- A state is consistent when every memo entry stores the value the
memoized function computes; lru_cache maintains this by construction. -/
def Consistent (st : AnalyzerState) : Prop :=
  (∀ k v, (k, v) ∈ st.preCache → v = preprocess k) ∧
  (∀ x y, (x, y) ∈ st.normCache → y = normalize x)

/-- The _normalize_score call through its lru_cache: hit returns the
stored value, miss computes and stores. -/
noncomputable def normalizeCached (st : AnalyzerState) (x : ℝ) :
    ℝ × AnalyzerState :=
  match @cacheFind ℝ ℝ (Classical.decEq ℝ) st.normCache x with
  | some y => (y, st)
  | none => (normalize x, ⟨st.preCache, (x, normalize x) :: st.normCache⟩)

/-- The _preprocess_text call through its lru_cache. -/
def preprocessCached (st : AnalyzerState) (t : List Char) :
    (List (List Char) × List (List Char)) × AnalyzerState :=
  match cacheFind st.preCache t with
  | some v => (v, st)
  | none => (preprocess t, ⟨(t, preprocess t) :: st.preCache, st.normCache⟩)

/-- analyze_writing_style with the caches threaded through its calls. -/
noncomputable def analyzeWritingStyleCached (st : AnalyzerState) (t : List Char) :
    ℝ × AnalyzerState :=
  let pc := preprocessCached st t
  let stats := textStats pc.1.1 pc.1.2
  let styleScore := (analyzePatterns t Category.writingStyle).1
  let lengthFactor : ℚ := min 100 (stats.1 * 5)
  let diversityFactor : ℚ := min 100 (stats.2 * 200)
  let lengthFactor := if malayalamFraction t > 0.3 then lengthFactor * 0.8
    else lengthFactor
  let diversityFactor := if malayalamFraction t > 0.3 then diversityFactor * 1.2
    else diversityFactor
  let combined := styleScore * 0.5 + lengthFactor * 0.25 + diversityFactor * 0.25
  normalizeCached pc.2 (combined : ℚ)

/-- calculate_clickbait_score with the caches threaded. -/
noncomputable def calculateClickbaitScoreCached (st : AnalyzerState)
    (t : List Char) : ℝ × AnalyzerState :=
  normalizeCached st (rawClickbait t)

/-- analyze_text with the caches threaded, in the exact call order of
the source: writing style, clickbait, then the three final
normalizations in the order the returned dictionary lists them. -/
noncomputable def analyzeTextCached (st : AnalyzerState) (s : List Char) :
    AnalysisResult × AnalyzerState :=
  if pyStrip s = [] then (zeroResult, st)
  else
    let t := s.take 3000
    let wsr := analyzeWritingStyleCached st t
    let cbr := calculateClickbaitScoreCached wsr.2 t
    let sens : ℝ :=
      if hasMalayalam t then
        (((analyzePatterns t Category.sensationalism).1 / 400 * 100 : ℚ) : ℝ) * 0.6
          + cbr.1 * 0.4
      else cbr.1 * 0.7 + (100 - wsr.1) * 0.3
    let a := normalizeCached cbr.2 sens
    let b := normalizeCached a.2 wsr.1
    let c := normalizeCached b.2 cbr.1
    (⟨a.1, b.1, c.1⟩, c.2)

/-! Basic facts about the sigmoid normalization. -/

lemma sigmoid_pos (x : ℝ) : 0 < 100 / (1 + Real.exp (-0.1 * (x - 50))) := by
  positivity

lemma sigmoid_lt (x : ℝ) : 100 / (1 + Real.exp (-0.1 * (x - 50))) < 100 := by
  rw [div_lt_iff₀ (by positivity)]
  nlinarith [Real.exp_pos (-0.1 * (x - 50))]

lemma normalize_eq (x : ℝ) :
    normalize x = 100 / (1 + Real.exp (-0.1 * (x - 50))) := by
  unfold normalize
  rw [min_eq_right (le_of_lt (sigmoid_lt x)), max_eq_right (le_of_lt (sigmoid_pos x))]

lemma normalize_pos (x : ℝ) : 0 < normalize x :=
  (normalize_eq x) ▸ sigmoid_pos x

lemma normalize_nonneg (x : ℝ) : 0 ≤ normalize x := le_max_left _ _

lemma normalize_le_100 (x : ℝ) : normalize x ≤ 100 :=
  max_le (by norm_num) (min_le_left _ _)

lemma normalize_lt_of_lt {x y : ℝ} (h : x < y) : normalize x < normalize y := by
  rw [normalize_eq, normalize_eq]
  apply div_lt_div_of_pos_left (by norm_num) (by positivity)
  have h1 : -0.1 * (y - 50) < -0.1 * (x - 50) := by nlinarith
  have h2 := Real.exp_lt_exp.mpr h1
  linarith

lemma normalize_mono {x y : ℝ} (h : x ≤ y) : normalize x ≤ normalize y := by
  rcases eq_or_lt_of_le h with rfl | h
  · exact le_refl _
  · exact (normalize_lt_of_lt h).le

/-! The pattern fold in closed form. -/

lemma analyzePatterns_foldl (t : List Char) (b : Bool) (rules : List Rule) :
    ∀ acc : ℚ × ℕ,
      rules.foldl (fun acc r =>
        let m := ruleCount t r
        if m ≠ 0 then
          (acc.1 + m * (if b then (r.weight : ℚ) * 1.2 else (r.weight : ℚ)),
           acc.2 + m)
        else acc) acc =
      (acc.1 + (if b then (1.2 : ℚ) else 1) * (natTotal t rules : ℚ),
       acc.2 + natCount t rules) := by
  induction rules with
  | nil => intro acc; simp [natTotal, natCount]
  | cons r rs ih =>
      intro acc
      rw [List.foldl_cons]
      by_cases h : ruleCount t r = 0
      · rw [ih]
        simp only [h, ne_eq, not_true_eq_false, if_false, natTotal, natCount,
          List.map_cons, List.sum_cons, h, Nat.zero_mul, Nat.zero_add]
      · simp only [ne_eq, h, not_false_eq_true, if_true]
        rw [ih]
        simp only [natTotal, natCount, List.map_cons, List.sum_cons]
        cases b <;>
          simp only [if_true, Bool.false_eq_true, if_false, Prod.mk.injEq] <;>
          exact ⟨by push_cast; ring, by omega⟩

/-- Closed form of the pattern fold: the total is the Malayalam factor
times the sum over rules of count times weight, and the match count is
the sum of the counts. -/
lemma analyzePatterns_eq (t : List Char) (cat : Category) :
    analyzePatterns t cat =
      ((if hasMalayalam t then (1.2 : ℚ) else 1) * (natTotal t (patterns cat) : ℚ),
       natCount t (patterns cat)) := by
  simp only [analyzePatterns]
  rw [analyzePatterns_foldl]
  simp

/-! Projections of the core result and facts about stripping. -/

lemma analyzeCore_clickbait (t : List Char) :
    (analyzeCore t).clickbait = normalize (calculateClickbaitScore t) := rfl

lemma analyzeCore_writingStyle (t : List Char) :
    (analyzeCore t).writingStyle = normalize (analyzeWritingStyle t) := rfl

lemma analyzeCore_sensationalism (t : List Char) :
    (analyzeCore t).sensationalism = normalize (sensRaw t) := rfl

lemma pyStrip_eq_nil_iff (s : List Char) :
    pyStrip s = [] ↔ s.all isPySpace = true := by
  unfold pyStrip
  constructor
  · intro h
    rw [List.reverse_eq_nil_iff, List.dropWhile_eq_nil_iff] at h
    rw [List.all_eq_true]
    intro x hx
    rcases List.mem_append.mp
        (by rw [List.takeWhile_append_dropWhile]; exact hx :
          x ∈ s.takeWhile isPySpace ++ s.dropWhile isPySpace) with h1 | h2
    · exact List.mem_takeWhile_imp h1
    · exact h x (List.mem_reverse.mpr h2)
  · intro h
    have h1 : s.dropWhile isPySpace = [] := by
      rw [List.dropWhile_eq_nil_iff]
      intro x hx
      exact List.all_eq_true.mp h x hx
    rw [h1]
    rfl

lemma sum_map_adjusted (t : List Char) (b : Bool) (l : List Rule) :
    (l.map fun r => (ruleCount t r : ℚ) *
        (if b then (r.weight : ℚ) * 1.2 else (r.weight : ℚ))).sum =
      (if b then (1.2 : ℚ) else 1) * (natTotal t l : ℚ) := by
  induction l with
  | nil => simp [natTotal]
  | cons r rs ih =>
      simp only [List.map_cons, List.sum_cons, ih, natTotal]
      cases b <;>
        simp only [if_true, Bool.false_eq_true, if_false] <;>
        push_cast <;> ring

/-! Refinement of the cached execution to the pure functions: a
consistent cache state never changes the values computed, and stays
consistent. -/

lemma analyzeCore_def (t : List Char) :
    analyzeCore t = ⟨normalize (sensRaw t), normalize (analyzeWritingStyle t),
      normalize (calculateClickbaitScore t)⟩ := rfl

lemma cacheFind_mem {α β : Type} [DecidableEq α] (c : List (α × β)) (k : α) (v : β)
    (h : cacheFind c k = some v) : (k, v) ∈ c := by
  induction c with
  | nil => simp [cacheFind] at h
  | cons p rest ih =>
      obtain ⟨k1, v1⟩ := p
      rw [cacheFind] at h
      by_cases hk : k = k1
      · rw [if_pos hk] at h
        injection h with h
        subst hk
        subst h
        exact List.mem_cons_self _ _
      · rw [if_neg hk] at h
        exact List.mem_cons_of_mem _ (ih h)

lemma normalizeCached_fst {st : AnalyzerState} (h : Consistent st) (x : ℝ) :
    (normalizeCached st x).1 = normalize x := by
  cases hfind : @cacheFind ℝ ℝ (Classical.decEq ℝ) st.normCache x with
  | none => simp [normalizeCached, hfind]
  | some y =>
      simp only [normalizeCached, hfind]
      exact h.2 x y (cacheFind_mem _ _ _ hfind)

lemma normalizeCached_consistent {st : AnalyzerState} (h : Consistent st) (x : ℝ) :
    Consistent (normalizeCached st x).2 := by
  cases hfind : @cacheFind ℝ ℝ (Classical.decEq ℝ) st.normCache x with
  | some y => simpa only [normalizeCached, hfind] using h
  | none =>
      simp only [normalizeCached, hfind]
      refine ⟨h.1, ?_⟩
      intro a b hab
      rcases List.mem_cons.mp hab with hab | hab
      · rw [Prod.mk.injEq] at hab
        obtain ⟨rfl, rfl⟩ := hab
        rfl
      · exact h.2 a b hab

lemma preprocessCached_fst {st : AnalyzerState} (h : Consistent st) (t : List Char) :
    (preprocessCached st t).1 = preprocess t := by
  cases hfind : cacheFind st.preCache t with
  | none => simp [preprocessCached, hfind]
  | some v =>
      simp only [preprocessCached, hfind]
      exact h.1 t v (cacheFind_mem _ _ _ hfind)

lemma preprocessCached_consistent {st : AnalyzerState} (h : Consistent st)
    (t : List Char) : Consistent (preprocessCached st t).2 := by
  cases hfind : cacheFind st.preCache t with
  | some v => simpa only [preprocessCached, hfind] using h
  | none =>
      simp only [preprocessCached, hfind]
      refine ⟨?_, h.2⟩
      intro a b hab
      rcases List.mem_cons.mp hab with hab | hab
      · rw [Prod.mk.injEq] at hab
        obtain ⟨rfl, rfl⟩ := hab
        rfl
      · exact h.1 a b hab

lemma analyzeWritingStyleCached_spec {st : AnalyzerState} (h : Consistent st)
    (t : List Char) :
    (analyzeWritingStyleCached st t).1 = analyzeWritingStyle t ∧
    Consistent (analyzeWritingStyleCached st t).2 := by
  have hp1 := preprocessCached_fst h t
  have hp2 := preprocessCached_consistent h t
  simp only [analyzeWritingStyleCached, analyzeWritingStyle, hp1]
  exact ⟨normalizeCached_fst hp2 _, normalizeCached_consistent hp2 _⟩

lemma calculateClickbaitScoreCached_spec {st : AnalyzerState} (h : Consistent st)
    (t : List Char) :
    (calculateClickbaitScoreCached st t).1 = calculateClickbaitScore t ∧
    Consistent (calculateClickbaitScoreCached st t).2 := by
  simp only [calculateClickbaitScoreCached, calculateClickbaitScore]
  exact ⟨normalizeCached_fst h _, normalizeCached_consistent h _⟩

lemma analyzeTextCached_spec {st : AnalyzerState} (h : Consistent st)
    (s : List Char) :
    (analyzeTextCached st s).1 = analyzeText s ∧
    Consistent (analyzeTextCached st s).2 := by
  by_cases hval : pyStrip s = []
  · rw [analyzeTextCached, analyzeText, if_pos hval, if_pos hval]
    exact ⟨rfl, h⟩
  · have h1 := analyzeWritingStyleCached_spec h (s.take 3000)
    have h2 := calculateClickbaitScoreCached_spec h1.2 (s.take 3000)
    rw [analyzeTextCached, analyzeText, if_neg hval, if_neg hval]
    simp only [h1.1, h2.1, analyzeCore_def, sensRaw]
    have h3 := normalizeCached_consistent h2.2
      (if hasMalayalam (s.take 3000) = true then
        (((analyzePatterns (s.take 3000) Category.sensationalism).1 / 400 * 100 : ℚ) : ℝ) * 0.6
          + calculateClickbaitScore (s.take 3000) * 0.4
       else calculateClickbaitScore (s.take 3000) * 0.7
          + (100 - analyzeWritingStyle (s.take 3000)) * 0.3)
    have h4 := normalizeCached_consistent h3 (analyzeWritingStyle (s.take 3000))
    constructor
    · rw [normalizeCached_fst h2.2, normalizeCached_fst h3, normalizeCached_fst h4]
    · exact normalizeCached_consistent h4 _

lemma analyzePatterns_fst (t : List Char) (cat : Category) :
    (analyzePatterns t cat).1 =
      (if hasMalayalam t then (1.2 : ℚ) else 1) * (natTotal t (patterns cat) : ℚ) := by
  rw [analyzePatterns_eq]

/-! The claims. -/

/-- C1, counterexample: on the text shock the pattern analysis returns
total 15 and match count 1, but the claimed log-dampened total for a
rule of weight 15 with one occurrence would be 15 * (1 + log 2), which
differs from 15. -/
theorem C1_counterexample :
    analyzePatterns "shock".toList Category.clickbait = ((15 : ℚ), 1) ∧
    (15 : ℝ) ≠ 15 * (1 + Real.log (1 + 1)) := by
  constructor
  · have h1 : hasMalayalam "shock".toList = false := by decide
    have h2 : natTotal "shock".toList (patterns Category.clickbait) = 15 := by decide
    have h3 : natCount "shock".toList (patterns Category.clickbait) = 1 := by decide
    rw [analyzePatterns_eq, h2, h3,
      if_neg (by decide : ¬ hasMalayalam "shock".toList = true)]
    norm_num
  · intro h
    have h2 : (1 + 1 : ℝ) = 2 := by norm_num
    rw [h2] at h
    have hl : 0 < Real.log 2 := Real.log_pos (by norm_num)
    nlinarith

/-- C1, amended: the pattern analysis is linear, not log-dampened: for
every text and category it returns the sum over rules of occurrence
count times weight (weight scaled by 1.2 when the text has Malayalam
characters) paired with the sum of the occurrence counts. -/
theorem C1_amended_linear (t : List Char) (cat : Category) :
    analyzePatterns t cat =
      (((patterns cat).map fun r =>
          (ruleCount t r : ℚ) *
            (if hasMalayalam t then (r.weight : ℚ) * 1.2 else (r.weight : ℚ))).sum,
       ((patterns cat).map fun r => ruleCount t r).sum) := by
  rw [analyzePatterns_eq, sum_map_adjusted t (hasMalayalam t) (patterns cat)]
  rfl

/-- C10: the total of the pattern analysis equals the plain sum of
occurrence count times weight, multiplied by 1.2 exactly when the text
contains at least one Malayalam character, in every category. -/
theorem C10_malayalam_multiplier (t : List Char) (cat : Category) :
    (analyzePatterns t cat).1 =
      (if hasMalayalam t then (1.2 : ℚ) else 1) *
        ((((patterns cat).map fun r => ruleCount t r * r.weight).sum : ℕ) : ℚ) := by
  rw [analyzePatterns_eq]
  rfl

/-- C2, counterexample: the input shock trims to 5 characters, below
the claimed minimum of 10, yet analyze_text does not return the
all-zero result: there is no minimum-length threshold in the code. -/
theorem C2_counterexample :
    (pyStrip "shock".toList).length < 10 ∧
    analyzeText "shock".toList ≠ zeroResult := by
  refine ⟨by decide, ?_⟩
  intro hEq
  have h : pyStrip "shock".toList ≠ [] := by decide
  rw [analyzeText, if_neg h] at hEq
  have h2 := congrArg AnalysisResult.clickbait hEq
  rw [analyzeCore_clickbait] at h2
  simp only [zeroResult] at h2
  exact (normalize_pos _).ne' h2

/-- C2, amended: analyze_text returns the all-zero result exactly for
the inputs whose stripped form is empty; every other input, of any
length, is scored (its clickbait output is positive). -/
theorem C2_amended_zero_iff (s : List Char) :
    analyzeText s = zeroResult ↔ pyStrip s = [] := by
  constructor
  · intro h
    by_contra hne
    rw [analyzeText, if_neg hne] at h
    have h2 := congrArg AnalysisResult.clickbait h
    rw [analyzeCore_clickbait] at h2
    simp only [zeroResult] at h2
    exact (normalize_pos _).ne' h2
  · intro h
    rw [analyzeText, if_pos h]

theorem C2_witness : analyzeText "   ".toList = zeroResult :=
  (C2_amended_zero_iff _).mpr (by decide)

/-- C9: the empty string and every whitespace-only string get the
all-zero result; the embedding is a total function, which models the
contract that no exception reaches the caller. -/
theorem C9_whitespace_all_zero (s : List Char) (h : s.all isPySpace = true) :
    analyzeText s = zeroResult := by
  rw [analyzeText, if_pos ((pyStrip_eq_nil_iff s).mpr h)]

theorem C9_witness :
    ("  ".toList).all isPySpace = true ∧ analyzeText "  ".toList = zeroResult :=
  ⟨by decide, C9_whitespace_all_zero _ (by decide)⟩

/-- C4, counterexample: the text of nine Latin letters and one Malayalam
letter has a Malayalam fraction of one tenth, not above 0.3, yet
max_observed is 500: the selecting condition is the presence of a
Malayalam character, not the 0.3 fraction threshold. -/
theorem C4_counterexample :
    maxObserved "aaaaaaaaaക".toList = 500 ∧
    ¬ (malayalamFraction "aaaaaaaaaക".toList > 0.3) := by
  constructor
  · rw [maxObserved, if_pos (by decide : hasMalayalam "aaaaaaaaaക".toList = true)]
  · rw [malayalamFraction, if_neg (by decide : ¬ "aaaaaaaaaക".toList = []),
      (by decide : ("aaaaaaaaaക".toList).countP isMalayalamChar = 1),
      (by decide : ("aaaaaaaaaക".toList).length = 10)]
    norm_num

/-- C4, amended: max_observed is 500 exactly when the text contains at
least one Malayalam character, and 400 exactly otherwise. -/
theorem C4_amended_presence (t : List Char) :
    (maxObserved t = 500 ↔ hasMalayalam t = true) ∧
    (maxObserved t = 400 ↔ hasMalayalam t = false) := by
  rw [maxObserved]
  cases h : hasMalayalam t <;> simp [h]

theorem C4_witness : maxObserved "aക".toList = 500 :=
  (C4_amended_presence _).1.mpr (by decide)

/-- C5, counterexample: on the single-letter input a, whose raw
clickbait score is 0, the clickbait output of analyze_text differs from
the sigmoid applied once to the raw score: the code applies the sigmoid
a second time in analyze_text. -/
theorem C5_counterexample :
    (analyzeText "a".toList).clickbait ≠
      normalize (rawClickbait (("a".toList).take 3000)) := by
  have h : pyStrip "a".toList ≠ [] := by decide
  rw [analyzeText, if_neg h, analyzeCore_clickbait, calculateClickbaitScore]
  have hraw : rawClickbait (("a".toList).take 3000) = 0 := by
    rw [(by decide : ("a".toList).take 3000 = "a".toList), rawClickbait]
    rw [show (analyzePatterns "a".toList Category.clickbait).1 = 0 by
      rw [analyzePatterns_eq,
        (by decide : natTotal "a".toList (patterns Category.clickbait) = 0)]
      norm_num]
    norm_num
  rw [hraw]
  simp only [Rat.cast_zero]
  exact (normalize_lt_of_lt (normalize_pos 0)).ne'

/-- C5, amended: for every input passing validation the clickbait value
of analyze_text is the sigmoid applied twice, not once, to the raw
score: once inside calculate_clickbait_score and once more on the
returned dictionary value. -/
theorem C5_amended_double_sigmoid (s : List Char) (h : pyStrip s ≠ []) :
    (analyzeText s).clickbait =
      normalize (normalize (rawClickbait (s.take 3000))) := by
  rw [analyzeText, if_neg h, analyzeCore_clickbait, calculateClickbaitScore]

theorem C5_witness :
    pyStrip "ab".toList ≠ [] ∧
    (analyzeText "ab".toList).clickbait =
      normalize (normalize (rawClickbait (("ab".toList).take 3000))) :=
  ⟨by decide, C5_amended_double_sigmoid _ (by decide)⟩

/-- C7: every component of the result of analyze_text lies between 0
and 100, for every input. -/
theorem C7_range (s : List Char) :
    (0 ≤ (analyzeText s).sensationalism ∧ (analyzeText s).sensationalism ≤ 100) ∧
    (0 ≤ (analyzeText s).writingStyle ∧ (analyzeText s).writingStyle ≤ 100) ∧
    (0 ≤ (analyzeText s).clickbait ∧ (analyzeText s).clickbait ≤ 100) := by
  rw [analyzeText]
  by_cases h : pyStrip s = []
  · rw [if_pos h]
    norm_num [zeroResult]
  · rw [if_neg h, analyzeCore_clickbait, analyzeCore_writingStyle,
      analyzeCore_sensationalism]
    exact ⟨⟨normalize_nonneg _, normalize_le_100 _⟩,
      ⟨normalize_nonneg _, normalize_le_100 _⟩,
      ⟨normalize_nonneg _, normalize_le_100 _⟩⟩

/-- C3, counterexample: a string of 3000 spaces followed by one letter
strips to a nonempty string and is scored (on its all-space 3000
character prefix), while its 3000-character truncation strips to empty
and gets the all-zero result, so analyze_text differs on the two: the
validation happens before the truncation. -/
theorem C3_counterexample :
    analyzeText (List.replicate 3000 (Char.ofNat 32) ++ "a".toList) ≠
      analyzeText ((List.replicate 3000 (Char.ofNat 32) ++ "a".toList).take 3000) := by
  have hall : (List.replicate 3000 (Char.ofNat 32)).all isPySpace = true := by
    rw [List.all_eq_true]
    intro x hx
    rw [List.eq_of_mem_replicate hx]
    decide
  have htake : (List.replicate 3000 (Char.ofNat 32) ++ "a".toList).take 3000 =
      List.replicate 3000 (Char.ofNat 32) :=
    List.take_left' (List.length_replicate 3000 (Char.ofNat 32))
  have hzero : analyzeText (List.replicate 3000 (Char.ofNat 32)) = zeroResult := by
    rw [analyzeText, if_pos ((pyStrip_eq_nil_iff _).mpr hall)]
  have hstrip : pyStrip (List.replicate 3000 (Char.ofNat 32) ++ "a".toList) ≠ [] := by
    intro hcon
    rw [pyStrip_eq_nil_iff, List.all_append, Bool.and_eq_true] at hcon
    exact absurd hcon.2 (by decide)
  intro hEq
  rw [htake, hzero, analyzeText, if_neg hstrip] at hEq
  have h2 := congrArg AnalysisResult.clickbait hEq
  rw [analyzeCore_clickbait] at h2
  simp only [zeroResult] at h2
  exact (normalize_pos _).ne' h2

/-- C3, amended: analyze_text agrees with analyze_text of the
3000-character truncation whenever the truncated prefix does not strip
to empty, and also whenever the whole input strips to empty; the law
fails only for inputs whose prefix is all whitespace while a later
character is not. -/
theorem C3_amended_truncation (s : List Char)
    (h : pyStrip (s.take 3000) ≠ [] ∨ pyStrip s = []) :
    analyzeText s = analyzeText (s.take 3000) := by
  rcases h with h | h
  · have hs : pyStrip s ≠ [] := by
      intro hnil
      apply h
      rw [pyStrip_eq_nil_iff] at hnil ⊢
      rw [List.all_eq_true] at hnil ⊢
      intro x hx
      exact hnil x (List.take_subset _ _ hx)
    rw [analyzeText, analyzeText, if_neg hs, if_neg h]
    congr 1
    exact (by simp : ((s.take 3000).take 3000 = s.take 3000)).symm
  · have h2 : pyStrip (s.take 3000) = [] := by
      rw [pyStrip_eq_nil_iff] at h ⊢
      rw [List.all_eq_true] at h ⊢
      intro x hx
      exact h x (List.take_subset _ _ hx)
    rw [analyzeText, analyzeText, if_pos h, if_pos h2]

theorem C3_witness : analyzeText "ab".toList = analyzeText (("ab".toList).take 3000) :=
  C3_amended_truncation _ (Or.inl (by decide))

/-- C6, counterexample: the text of 25 clickbait occurrences extended by
one more clickbait occurrence (a Malayalam one, flipping the weight
multiplier and max_observed) has a strictly smaller clickbait score, so
adding occurrences of a clickbait pattern can decrease the score. -/
theorem C6_counterexample :
    c6u = c6t ++ "വൈറൽ".toList ∧
    natCount c6u clickbaitPatterns = natCount c6t clickbaitPatterns + 1 ∧
    (analyzeText c6u).clickbait < (analyzeText c6t).clickbait := by
  refine ⟨rfl, by decide, ?_⟩
  have htT : c6t.take 3000 = c6t := by decide
  have htU : c6u.take 3000 = c6u := by decide
  have hrawT : rawClickbait c6t = 375 / 4 := by
    rw [rawClickbait, analyzePatterns_fst,
      (by decide : natTotal c6t (patterns Category.clickbait) = 375),
      if_neg (by decide : ¬ hasMalayalam c6t = true),
      maxObserved, if_neg (by decide : ¬ hasMalayalam c6t = true),
      clickbaitLengthFactor, if_neg (by decide : ¬ 1000 < c6t.length)]
    norm_num
  have hrawU : rawClickbait c6u = 468 / 5 := by
    rw [rawClickbait, analyzePatterns_fst,
      (by decide : natTotal c6u (patterns Category.clickbait) = 390),
      if_pos (by decide : hasMalayalam c6u = true),
      maxObserved, if_pos (by decide : hasMalayalam c6u = true),
      clickbaitLengthFactor, if_neg (by decide : ¬ 1000 < c6u.length)]
    norm_num
  rw [analyzeText, analyzeText, if_neg (by decide : ¬ pyStrip c6u = []),
    if_neg (by decide : ¬ pyStrip c6t = []), analyzeCore_clickbait,
    analyzeCore_clickbait, calculateClickbaitScore, calculateClickbaitScore,
    htT, htU, hrawT, hrawU]
  apply normalize_lt_of_lt
  apply normalize_lt_of_lt
  push_cast
  norm_num

/-- C6, amended: the clickbait score does not decrease when occurrences
are added, provided the addition leaves the Malayalam-presence flag and
the side of the 1000-character length penalty unchanged on the truncated
text: under those conditions the score is monotone in the weighted
occurrence total. -/
theorem C6_amended_monotone (t u : List Char)
    (ht : pyStrip t ≠ []) (hu : pyStrip u ≠ [])
    (hmal : hasMalayalam (t.take 3000) = hasMalayalam (u.take 3000))
    (hlen : 1000 < (t.take 3000).length ↔ 1000 < (u.take 3000).length)
    (htot : natTotal (t.take 3000) clickbaitPatterns ≤
      natTotal (u.take 3000) clickbaitPatterns) :
    (analyzeText t).clickbait ≤ (analyzeText u).clickbait := by
  rw [analyzeText, analyzeText, if_neg ht, if_neg hu, analyzeCore_clickbait,
    analyzeCore_clickbait, calculateClickbaitScore, calculateClickbaitScore]
  apply normalize_mono
  apply normalize_mono
  rw [Rat.cast_le]
  rw [rawClickbait, rawClickbait, analyzePatterns_fst, analyzePatterns_fst,
    maxObserved, maxObserved, clickbaitLengthFactor, clickbaitLengthFactor,
    hmal, if_congr hlen rfl rfl]
  simp only [patterns] at htot ⊢
  have hT : ((natTotal (t.take 3000) clickbaitPatterns : ℚ)) ≤
      (natTotal (u.take 3000) clickbaitPatterns : ℚ) := by exact_mod_cast htot
  have hf : 0 ≤ (if hasMalayalam (u.take 3000) then (1.2 : ℚ) else 1) := by
    split_ifs <;> norm_num
  have hM : 0 < (if hasMalayalam (u.take 3000) then (500 : ℚ) else 400) := by
    split_ifs <;> norm_num
  have hL : 0 ≤ (if 1000 < (u.take 3000).length then (0.8 : ℚ) else 1) := by
    split_ifs <;> norm_num
  rw [div_eq_mul_inv, div_eq_mul_inv]
  apply mul_le_mul_of_nonneg_right _ hL
  apply mul_le_mul_of_nonneg_right _ (by norm_num : (0 : ℚ) ≤ 100)
  apply mul_le_mul_of_nonneg_right _ (inv_nonneg.mpr hM.le)
  exact mul_le_mul_of_nonneg_left hT hf

theorem C6_witness :
    pyStrip "a".toList ≠ [] ∧ pyStrip "shock".toList ≠ [] ∧
    natTotal (("a".toList).take 3000) clickbaitPatterns ≤
      natTotal (("shock".toList).take 3000) clickbaitPatterns ∧
    (analyzeText "a".toList).clickbait ≤ (analyzeText "shock".toList).clickbait :=
  ⟨by decide, by decide, by decide,
    C6_amended_monotone _ _ (by decide) (by decide) (by decide) (by decide) (by decide)⟩

/-- C8: two successive calls of analyze_text on the same input return
identical output.  The only mutable state of the analyzer is the pair of
memo caches; starting from any consistent cache state, the first call
and the second call (through the state the first call left behind)
produce the same result. -/
theorem C8_deterministic (st : AnalyzerState) (s : List Char) (h : Consistent st) :
    (analyzeTextCached st s).1 = (analyzeTextCached (analyzeTextCached st s).2 s).1 := by
  have h1 := analyzeTextCached_spec h s
  have h2 := analyzeTextCached_spec h1.2 s
  rw [h1.1, h2.1]

theorem C8_witness :
    Consistent initState ∧
    (analyzeTextCached initState "a".toList).1 =
      (analyzeTextCached (analyzeTextCached initState "a".toList).2 "a".toList).1 :=
  have hc : Consistent initState :=
    ⟨fun _ _ hkv => absurd hkv (List.not_mem_nil _),
     fun _ _ hxy => absurd hxy (List.not_mem_nil _)⟩
  ⟨hc, C8_deterministic initState "a".toList hc⟩

end WritingStyle
